/-
  Verification of the DomaGuardian on-chain core: a shallow embedding of the
  Solidity contracts (DToken payment ledger, Universal messaging, feature
  request logs, Monitoring, DomainManagement) and proofs of the specified
  properties.

  Modelling conventions:
  - addresses are natural numbers (0 is the zero address);
  - amounts are in wei as natural numbers (FEATURE_COST = 0.0001 ether = 10^14);
  - storage mappings are Lean functions; dynamic arrays are Lean lists;
  - a reverting call is an `Except.error`: no state is returned, which models
    Solidity's all-or-nothing revert semantics (state is unchanged on failure);
  - `msg.sender` / `msg.value` / `block.timestamp` / `block.chainid` are
    explicit parameters; keccak256 comparison of strings is string equality.
-/
import Mathlib

set_option maxHeartbeats 1000000

namespace DToken

/-- Addresses are modelled as natural numbers; 0 is the zero address. -/
abbrev Addr := Nat

/-- `FEATURE_COST = 0.0001 ether` in wei. -/
def FEATURE_COST : Nat := 100000000000000

/-- Revert reasons of the DToken contract (plus the Ownable guard). -/
inductive DTokenError where
  | UnauthorizedContract
  | InsufficientPayment
  | InvalidAmount
  | TransferFailed
  | OnlyOwner
deriving DecidableEq, Repr

/-- Storage of the DToken contract, together with the contract's native-currency
balance (`address(this).balance`). -/
structure DTokenState where
  owner : Addr
  authorizedContracts : Addr → Bool
  userPayments : Addr → Nat
  userFeatureUsage : Addr → Nat
  contractBalance : Nat

/-- `payForFeature()` (payable): reverts with `InsufficientPayment` unless
`msg.value == FEATURE_COST`; otherwise credits the sender. The attached value
also raises the contract's held balance. -/
def payForFeature (sender : Addr) (value : Nat) (st : DTokenState) :
    Except DTokenError DTokenState :=
  if value ≠ FEATURE_COST then .error .InsufficientPayment
  else .ok { st with
    userPayments := fun a =>
      if a = sender then st.userPayments a + value else st.userPayments a,
    contractBalance := st.contractBalance + value }

/-- `useFeature(user)`: the `onlyAuthorized` modifier reverts with
`UnauthorizedContract` when the caller is not in the allow-list; then reverts
with `InsufficientPayment` when the user's credit is below `FEATURE_COST`;
otherwise debits the credit and bumps the usage counter. -/
def useFeature (caller user : Addr) (st : DTokenState) :
    Except DTokenError DTokenState :=
  if st.authorizedContracts caller = false then .error .UnauthorizedContract
  else if st.userPayments user < FEATURE_COST then .error .InsufficientPayment
  else .ok { st with
    userPayments := fun a =>
      if a = user then st.userPayments a - FEATURE_COST else st.userPayments a,
    userFeatureUsage := fun a =>
      if a = user then st.userFeatureUsage a + 1 else st.userFeatureUsage a }

/-- `authorizeContract(contractAddress, authorized)` (onlyOwner). -/
def authorizeContract (caller ca : Addr) (auth : Bool) (st : DTokenState) :
    Except DTokenError DTokenState :=
  if caller ≠ st.owner then .error .OnlyOwner
  else .ok { st with
    authorizedContracts := fun a =>
      if a = ca then auth else st.authorizedContracts a }

/-- `hasFeaturePayment(user)`: `userPayments[user] >= FEATURE_COST`. -/
def hasFeaturePayment (user : Addr) (st : DTokenState) : Bool :=
  decide (FEATURE_COST ≤ st.userPayments user)

/-- `withdrawETH(amount)` (onlyOwner): `amount = 0` means withdraw the whole
held balance; reverts with `InvalidAmount` if the (resolved) amount exceeds the
held balance or is zero; otherwise sends the amount to the owner. Returns the
new state and the transferred amount. -/
def withdrawETH (caller : Addr) (amount : Nat) (st : DTokenState) :
    Except DTokenError (DTokenState × Nat) :=
  if caller ≠ st.owner then .error .OnlyOwner
  else
    let contractBalance := st.contractBalance
    let amount' := if amount = 0 then contractBalance else amount
    if amount' > contractBalance then .error .InvalidAmount
    else if amount' = 0 then .error .InvalidAmount
    else .ok ({ st with contractBalance := contractBalance - amount' }, amount')

/-- The `receive()` function: credits the sender by exactly the value attached
to the plain transfer, with no check on the amount. -/
def receiveEth (sender : Addr) (value : Nat) (st : DTokenState) : DTokenState :=
  { st with
    userPayments := fun a =>
      if a = sender then st.userPayments a + value else st.userPayments a,
    contractBalance := st.contractBalance + value }

/-- The `fallback()` function: same crediting behaviour as `receive()`. -/
def fallbackEth (sender : Addr) (value : Nat) (st : DTokenState) : DTokenState :=
  { st with
    userPayments := fun a =>
      if a = sender then st.userPayments a + value else st.userPayments a,
    contractBalance := st.contractBalance + value }

/-- Run a DToken call, keeping the pre-state on revert. -/
def applyOr (r : Except DTokenError DTokenState) (st : DTokenState) :
    DTokenState :=
  match r with
  | .ok s => s
  | .error _ => st

/-- One externally callable DToken transaction. -/
inductive DTokenOp where
  | pay (sender : Addr) (value : Nat)
  | use (caller user : Addr)
  | auth (caller ca : Addr) (a : Bool)
  | wdraw (caller : Addr) (amount : Nat)
  | recv (sender : Addr) (value : Nat)
  | fb (sender : Addr) (value : Nat)

/-- Transaction-level step: a reverting call leaves the state unchanged. -/
def dtokenStep (st : DTokenState) : DTokenOp → DTokenState
  | .pay s v => applyOr (payForFeature s v st) st
  | .use c u => applyOr (useFeature c u st) st
  | .auth c ca a => applyOr (authorizeContract c ca a st) st
  | .wdraw c n => applyOr ((withdrawETH c n st).map Prod.fst) st
  | .recv s v => receiveEth s v st
  | .fb s v => fallbackEth s v st

/-- An op that (if it succeeds) could put `c` back into the allow-list. -/
def reauthorizes (c : Addr) : DTokenOp → Prop
  | .auth _ ca a => ca = c ∧ a = true
  | _ => False

instance (c : Addr) (op : DTokenOp) : Decidable (reauthorizes c op) := by
  cases op with
  | auth caller ca a => exact inferInstanceAs (Decidable (ca = c ∧ a = true))
  | pay s v => exact inferInstanceAs (Decidable False)
  | use x y => exact inferInstanceAs (Decidable False)
  | wdraw x y => exact inferInstanceAs (Decidable False)
  | recv s v => exact inferInstanceAs (Decidable False)
  | fb s v => exact inferInstanceAs (Decidable False)

/-- No transaction other than a re-authorization of `c` can put `c` back into
the allow-list. -/
theorem dtokenStep_preserves_unauthorized (st : DTokenState) (c : Addr)
    (op : DTokenOp) (hc : st.authorizedContracts c = false)
    (hop : ¬ reauthorizes c op) :
    (dtokenStep st op).authorizedContracts c = false := by
  cases op with
  | pay s v =>
    simp only [dtokenStep]
    cases hstep : payForFeature s v st with
    | error e => simp only [applyOr, hstep]; exact hc
    | ok s' =>
      simp only [applyOr, hstep]
      simp only [payForFeature] at hstep
      split at hstep
      · exact absurd hstep (by simp)
      · cases hstep; exact hc
  | use x y =>
    simp only [dtokenStep]
    cases hstep : useFeature x y st with
    | error e => simp only [applyOr, hstep]; exact hc
    | ok s' =>
      simp only [applyOr, hstep]
      simp only [useFeature] at hstep
      split at hstep
      · exact absurd hstep (by simp)
      · split at hstep
        · exact absurd hstep (by simp)
        · cases hstep; exact hc
  | auth caller ca a =>
    simp only [dtokenStep]
    cases hstep : authorizeContract caller ca a st with
    | error e => simp only [applyOr, hstep]; exact hc
    | ok s' =>
      simp only [applyOr, hstep]
      simp only [authorizeContract] at hstep
      split at hstep
      · exact absurd hstep (by simp)
      · cases hstep
        show (if c = ca then a else st.authorizedContracts c) = false
        by_cases hca : c = ca
        · subst hca
          rw [if_pos rfl]
          cases a with
          | false => rfl
          | true => exact absurd ⟨rfl, rfl⟩ hop
        · rw [if_neg hca]
          exact hc
  | wdraw x y =>
    simp only [dtokenStep]
    cases hstep : withdrawETH x y st with
    | error e => simp only [Except.map, applyOr, hstep]; exact hc
    | ok p =>
      simp only [Except.map, applyOr, hstep]
      simp only [withdrawETH] at hstep
      repeat' split at hstep
      all_goals cases hstep
      all_goals exact hc
  | recv s v => exact hc
  | fb s v => exact hc

/-- The allow-list bit of `c` stays off along any sequence of transactions that
contains no re-authorization of `c`. -/
theorem foldl_preserves_unauthorized (c : Addr) (ops : List DTokenOp) :
    ∀ st : DTokenState, st.authorizedContracts c = false →
    (∀ op ∈ ops, ¬ reauthorizes c op) →
    (ops.foldl dtokenStep st).authorizedContracts c = false := by
  induction ops with
  | nil => intro st hc _; exact hc
  | cons op ops ih =>
    intro st hc hops
    simp only [List.foldl_cons]
    exact ih (dtokenStep st op)
      (dtokenStep_preserves_unauthorized st c op hc (hops op (List.mem_cons_self op ops)))
      (fun o ho => hops o (List.mem_cons_of_mem op ho))

end DToken

namespace DToken

/-- **C1.** The payment ledger's credit-balance dynamics:
(1) a successful deposit (`payForFeature`) raises the depositor's credit by
exactly the fixed price `FEATURE_COST` and changes nobody else's credit;
(2) a successful debit (`useFeature`) lowers the user's credit by exactly
`FEATURE_COST` and changes nobody else's credit;
(3) a debit attempted by an authorized spender while the user's credit is below
the price reverts with `InsufficientPayment` (the spec's `InsufficientCredit`),
and — reverts returning no state — leaves the balance unchanged. -/
theorem c1_credit_balance_dynamics :
    (∀ (st st' : DTokenState) (s : Addr) (v : Nat),
      payForFeature s v st = .ok st' →
      st'.userPayments s = st.userPayments s + FEATURE_COST ∧
      ∀ a, a ≠ s → st'.userPayments a = st.userPayments a) ∧
    (∀ (st st' : DTokenState) (c u : Addr),
      useFeature c u st = .ok st' →
      st'.userPayments u + FEATURE_COST = st.userPayments u ∧
      ∀ a, a ≠ u → st'.userPayments a = st.userPayments a) ∧
    (∀ (st : DTokenState) (c u : Addr),
      st.authorizedContracts c = true →
      st.userPayments u < FEATURE_COST →
      useFeature c u st = .error .InsufficientPayment) := by
  refine ⟨?_, ?_, ?_⟩
  · intro st st' s v h
    simp only [payForFeature] at h
    split at h
    · exact absurd h (by simp)
    · rename_i hv
      simp only [not_not] at hv
      subst hv
      cases h
      constructor
      · simp
      · intro a ha
        simp [ha]
  · intro st st' c u h
    simp only [useFeature] at h
    split at h
    · exact absurd h (by simp)
    · split at h
      · exact absurd h (by simp)
      · rename_i hlt
        cases h
        constructor
        · show (if u = u then st.userPayments u - FEATURE_COST
              else st.userPayments u) + FEATURE_COST = st.userPayments u
          rw [if_pos rfl]
          omega
        · intro a ha
          simp [ha]
  · intro st c u hauth hlt
    simp only [useFeature, hauth]
    simp [hlt]

/-- States used by the concrete witnesses. -/
def w0 : DTokenState :=
  { owner := 1
    authorizedContracts := fun a => decide (a = 9)
    userPayments := fun a => if a = 7 then FEATURE_COST else 0
    userFeatureUsage := fun _ => 0
    contractBalance := FEATURE_COST }

/-- `w0` after user 7 deposits the exact price. -/
def w1 : DTokenState := applyOr (payForFeature 7 FEATURE_COST w0) w0

/-- `w1` after authorized spender 9 debits user 7. -/
def w2 : DTokenState := applyOr (useFeature 9 7 w1) w1

/-- Witness for C1 at concrete inputs: a deposit by user 7 on `w0` raises the
credit by exactly the price; a debit on `w1` lowers it by the price; a debit of
user 3 (credit 0) by the authorized spender 9 reverts with
`InsufficientPayment`. -/
theorem c1_credit_balance_dynamics_witness :
    (w1.userPayments 7 = w0.userPayments 7 + FEATURE_COST) ∧
    (w2.userPayments 7 + FEATURE_COST = w1.userPayments 7) ∧
    useFeature 9 3 w0 = .error .InsufficientPayment := by
  refine ⟨?_, ?_, ?_⟩
  · exact (c1_credit_balance_dynamics.1 w0 w1 7 FEATURE_COST rfl).1
  · exact (c1_credit_balance_dynamics.2.1 w1 w2 9 7 rfl).1
  · exact c1_credit_balance_dynamics.2.2 w0 9 3 (by decide)
      (by simp [w0, FEATURE_COST])

/-- **C2.** Debits are gated by the authorized-spender allow-list:
(1) a successful `useFeature` call implies the caller was authorized;
(2) a caller outside the allow-list always gets `UnauthorizedContract`
(the spec's not-authorized error) — a revert, so state is unchanged;
(3) after the owner toggles caller `c`'s authorization to false, every
subsequent debit attempt by `c` fails with `UnauthorizedContract`, along any
sequence of further transactions that contains no re-authorization of `c`. -/
theorem c2_debit_requires_authorization :
    (∀ (st st' : DTokenState) (c u : Addr),
      useFeature c u st = .ok st' → st.authorizedContracts c = true) ∧
    (∀ (st : DTokenState) (c u : Addr),
      st.authorizedContracts c = false →
      useFeature c u st = .error .UnauthorizedContract) ∧
    (∀ (st st1 : DTokenState) (c u : Addr) (ops : List DTokenOp),
      authorizeContract st.owner c false st = .ok st1 →
      (∀ op ∈ ops, ¬ reauthorizes c op) →
      useFeature c u (ops.foldl dtokenStep st1) = .error .UnauthorizedContract) := by
  refine ⟨?_, ?_, ?_⟩
  · intro st st' c u h
    simp only [useFeature] at h
    split at h
    · exact absurd h (by simp)
    · rename_i hc
      simpa using hc
  · intro st c u hc
    simp [useFeature, hc]
  · intro st st1 c u ops h1 hops
    have hoff : st1.authorizedContracts c = false := by
      simp only [authorizeContract] at h1
      split at h1
      · exact absurd h1 (by simp)
      · cases h1
        simp
    have := foldl_preserves_unauthorized c ops st1 hoff hops
    simp [useFeature, this]

/-- `w0` after its owner deauthorizes spender 9. -/
def w3 : DTokenState := applyOr (authorizeContract 1 9 false w0) w0

/-- Witness for C2 at concrete inputs: the successful debit on `w1` was by an
authorized spender; spender 5 (unauthorized) is rejected; after deauthorizing
spender 9 and then running a deposit and a direct transfer, a debit by 9 is
still rejected. -/
theorem c2_debit_requires_authorization_witness :
    w1.authorizedContracts 9 = true ∧
    useFeature 5 7 w0 = .error .UnauthorizedContract ∧
    useFeature 9 7 ([DTokenOp.pay 7 FEATURE_COST, DTokenOp.recv 4 55].foldl
      dtokenStep w3) = .error .UnauthorizedContract := by
  refine ⟨?_, ?_, ?_⟩
  · exact c2_debit_requires_authorization.1 w1 w2 9 7 rfl
  · exact c2_debit_requires_authorization.2.1 w0 5 7 (by decide)
  · exact c2_debit_requires_authorization.2.2 w0 w3 9 7
      [DTokenOp.pay 7 FEATURE_COST, DTokenOp.recv 4 55] rfl
      (by intro op hop; fin_cases hop <;> simp [reauthorizes])

/-- **C9.** `withdrawETH` (the privileged withdraw), called by the owner:
(1) with `amount = 0` and a nonzero held balance it transfers the entire
currently-held native-currency balance (the new held balance is 0);
(2) any requested nonzero amount exceeding the held balance reverts with
`InvalidAmount`;
(3) `amount = 0` with an empty held balance (the resolved amount is zero)
reverts with `InvalidAmount`. Reverts return no state, so nothing is
transferred. -/
theorem c9_withdraw_semantics :
    (∀ (st : DTokenState) (c : Addr), c = st.owner → 0 < st.contractBalance →
      withdrawETH c 0 st =
        .ok ({ st with contractBalance := 0 }, st.contractBalance)) ∧
    (∀ (st : DTokenState) (c : Addr) (amount : Nat), c = st.owner →
      amount ≠ 0 → st.contractBalance < amount →
      withdrawETH c amount st = .error .InvalidAmount) ∧
    (∀ (st : DTokenState) (c : Addr), c = st.owner → st.contractBalance = 0 →
      withdrawETH c 0 st = .error .InvalidAmount) := by
  refine ⟨?_, ?_, ?_⟩
  · intro st c hc hpos
    subst hc
    have h0 : st.contractBalance ≠ 0 := by omega
    simp [withdrawETH, h0, Nat.sub_self]
  · intro st c amount hc hne hgt
    subst hc
    simp [withdrawETH, hne, hgt]
  · intro st c hc hz
    subst hc
    simp [withdrawETH, hz]

/-- Witness for C9 at concrete inputs: on `w0` (owner 1, held balance
`FEATURE_COST`), `withdrawETH 1 0` pays out the full balance; requesting more
than the balance reverts; withdrawing all from an empty-balance state
reverts. -/
theorem c9_withdraw_semantics_witness :
    withdrawETH 1 0 w0 = .ok ({ w0 with contractBalance := 0 }, w0.contractBalance) ∧
    withdrawETH 1 (w0.contractBalance + 1) w0 = .error .InvalidAmount ∧
    withdrawETH 1 0 { w0 with contractBalance := 0 } = .error .InvalidAmount := by
  refine ⟨?_, ?_, ?_⟩
  · exact c9_withdraw_semantics.1 w0 1 rfl (by simp [w0, FEATURE_COST])
  · exact c9_withdraw_semantics.2.1 w0 1 (w0.contractBalance + 1) rfl
      (by simp [w0, FEATURE_COST]) (by omega)
  · exact c9_withdraw_semantics.2.2 { w0 with contractBalance := 0 } 1 rfl rfl

/-- **C10.** Directly sending native currency to the contract (hitting
`receive()` or `fallback()`) credits the sender's internal credit balance by
exactly the amount sent, for any nonzero amount, leaving everyone else's
balance unchanged — the exact-price equality check exists only on the
`payForFeature` entry point, which rejects every value other than
`FEATURE_COST`. -/
theorem c10_direct_transfer_credits :
    (∀ (st : DTokenState) (s : Addr) (v : Nat), v ≠ 0 →
      (receiveEth s v st).userPayments s = st.userPayments s + v ∧
      ∀ a, a ≠ s → (receiveEth s v st).userPayments a = st.userPayments a) ∧
    (∀ (st : DTokenState) (s : Addr) (v : Nat), v ≠ 0 →
      (fallbackEth s v st).userPayments s = st.userPayments s + v ∧
      ∀ a, a ≠ s → (fallbackEth s v st).userPayments a = st.userPayments a) ∧
    (∀ (st : DTokenState) (s : Addr) (v : Nat), v ≠ FEATURE_COST →
      payForFeature s v st = .error .InsufficientPayment) := by
  refine ⟨?_, ?_, ?_⟩
  · intro st s v _
    exact ⟨by simp [receiveEth], fun a ha => by simp [receiveEth, ha]⟩
  · intro st s v _
    exact ⟨by simp [fallbackEth], fun a ha => by simp [fallbackEth, ha]⟩
  · intro st s v hv
    simp [payForFeature, hv]

/-- Witness for C10 at concrete inputs: sending 55 wei (not the feature price)
to `receive()`/`fallback()` from address 4 credits 4 by exactly 55, while
`payForFeature` with 55 wei reverts. -/
theorem c10_direct_transfer_credits_witness :
    (receiveEth 4 55 w0).userPayments 4 = w0.userPayments 4 + 55 ∧
    (fallbackEth 4 55 w0).userPayments 4 = w0.userPayments 4 + 55 ∧
    payForFeature 4 55 w0 = .error .InsufficientPayment := by
  refine ⟨?_, ?_, ?_⟩
  · exact (c10_direct_transfer_credits.1 w0 4 55 (by decide)).1
  · exact (c10_direct_transfer_credits.2.1 w0 4 55 (by decide)).1
  · exact c10_direct_transfer_credits.2.2 w0 4 55 (by decide)

end DToken

namespace Universal

open DToken

/-- `MESSAGE_COST = 0.0001 ether` in wei. -/
def MESSAGE_COST : Nat := 100000000000000

/-- Revert reasons of the Universal messaging contract; a revert inside the
nested `DToken.useFeature` call aborts the whole transaction and is carried
as `DTokenRevert`. -/
inductive UniversalError where
  | InsufficientPayment
  | InvalidRecipient
  | InvalidMessage
  | DTokenRevert (e : DTokenError)
deriving DecidableEq, Repr

/-- The `Message` struct. -/
structure Message where
  sender : Addr
  recipient : Addr
  content : String
  timestamp : Nat
  payment : Nat
  crossChain : Bool
  destinationChain : Nat
deriving DecidableEq, Repr, Inhabited

/-- Storage of the Universal contract, together with the DToken it talks to and
the Universal contract's own address (its `msg.sender` on DToken calls). -/
structure UniversalState where
  dtoken : DTokenState
  selfAddr : Addr
  userMessages : Addr → List Message
  receivedMessages : Addr → List Message
  allMessages : List Message

/-- `sendMessage(recipient, message)`: `requirePayment` modifier, zero-address
and empty-message checks, `dToken.useFeature(msg.sender)`, then the new record
is pushed to the sender's sent list, the recipient's received list and the
global list (with `crossChain = false`, `destinationChain = block.chainid`). -/
def sendMessage (caller recipient : Addr) (message : String)
    (timestamp chainid : Nat) (st : UniversalState) :
    Except UniversalError UniversalState :=
  if hasFeaturePayment caller st.dtoken = false then .error .InsufficientPayment
  else if recipient = 0 then .error .InvalidRecipient
  else if message = "" then .error .InvalidMessage
  else match useFeature st.selfAddr caller st.dtoken with
    | .error e => .error (.DTokenRevert e)
    | .ok dt' =>
      let m : Message :=
        { sender := caller, recipient := recipient, content := message,
          timestamp := timestamp, payment := MESSAGE_COST,
          crossChain := false, destinationChain := chainid }
      .ok { st with
        dtoken := dt',
        userMessages := fun a =>
          if a = caller then st.userMessages a ++ [m] else st.userMessages a,
        receivedMessages := fun a =>
          if a = recipient then st.receivedMessages a ++ [m]
          else st.receivedMessages a,
        allMessages := st.allMessages ++ [m] }

/-- `sendCrossChainMessage(destinationChain, recipient, message)`: as
`sendMessage` but additionally rejects `destinationChain == block.chainid`
with `InvalidRecipient`, tags the record `crossChain = true`, and appends it
only to the sender's sent list and the global list (never to any received
list). -/
def sendCrossChainMessage (caller : Addr) (destinationChain : Nat)
    (recipient : Addr) (message : String) (timestamp chainid : Nat)
    (st : UniversalState) : Except UniversalError UniversalState :=
  if hasFeaturePayment caller st.dtoken = false then .error .InsufficientPayment
  else if recipient = 0 then .error .InvalidRecipient
  else if message = "" then .error .InvalidMessage
  else if destinationChain = chainid then .error .InvalidRecipient
  else match useFeature st.selfAddr caller st.dtoken with
    | .error e => .error (.DTokenRevert e)
    | .ok dt' =>
      let m : Message :=
        { sender := caller, recipient := recipient, content := message,
          timestamp := timestamp, payment := MESSAGE_COST,
          crossChain := true, destinationChain := destinationChain }
      .ok { st with
        dtoken := dt',
        userMessages := fun a =>
          if a = caller then st.userMessages a ++ [m] else st.userMessages a,
        allMessages := st.allMessages ++ [m] }

/-- The copy loop of `getAllMessages`: `result[j] = allMessages[offset + j]`
for `j = 0 .. n-1`. -/
def copySlice (l : List Message) : Nat → Nat → List Message
  | _, 0 => []
  | offset, n + 1 => l.getD offset default :: copySlice l (offset + 1) n

/-- `getAllMessages(offset, limit)`: empty when `offset >= total`, else the
copy loop over `[offset, min(offset+limit, total))`. -/
def getAllMessages (offset limit : Nat) (st : UniversalState) : List Message :=
  if offset ≥ st.allMessages.length then []
  else
    copySlice st.allMessages offset
      ((if offset + limit > st.allMessages.length then st.allMessages.length
        else offset + limit) - offset)

/-- The copy loop produces exactly the drop/take slice when it stays in
bounds. -/
theorem copySlice_eq_drop_take (l : List Message) :
    ∀ (n offset : Nat), offset + n ≤ l.length →
    copySlice l offset n = (l.drop offset).take n := by
  intro n
  induction n with
  | zero => intro offset _; simp [copySlice]
  | succ n ih =>
    intro offset h
    have hlt : offset < l.length := by omega
    rw [copySlice, List.getD_eq_getElem l default hlt,
      List.drop_eq_getElem_cons hlt, List.take_succ_cons,
      ih (offset + 1) (by omega)]

/-- **C5.** The paginated global read returns exactly the slice
`[offset, min(offset+limit, total))` of the global message list — equal to
`(allMessages.drop offset).take limit` — and is empty whenever
`offset ≥ total`. In particular on a 5-entry list, `(offset 3, limit 10)`
yields exactly entries 3 and 4, and `(offset 10, limit 5)` yields the empty
sequence. -/
theorem c5_getAllMessages_pagination :
    (∀ (st : UniversalState) (offset limit : Nat),
      getAllMessages offset limit st =
        (st.allMessages.drop offset).take limit) ∧
    (∀ (st : UniversalState) (offset limit : Nat),
      st.allMessages.length ≤ offset → getAllMessages offset limit st = []) ∧
    (∀ (st : UniversalState), st.allMessages.length = 5 →
      getAllMessages 3 10 st =
        [st.allMessages.getD 3 default, st.allMessages.getD 4 default] ∧
      getAllMessages 10 5 st = []) := by
  have key : ∀ (st : UniversalState) (offset limit : Nat),
      getAllMessages offset limit st =
        (st.allMessages.drop offset).take limit := by
    intro st offset limit
    by_cases hoff : offset ≥ st.allMessages.length
    · rw [getAllMessages, if_pos hoff]
      rw [List.drop_eq_nil_of_le hoff, List.take_nil]
    · rw [getAllMessages, if_neg hoff]
      push_neg at hoff
      by_cases hend : offset + limit > st.allMessages.length
      · rw [if_pos hend,
          copySlice_eq_drop_take st.allMessages (st.allMessages.length - offset)
            offset (by omega)]
        rw [List.take_of_length_le (by rw [List.length_drop]),
          List.take_of_length_le (by rw [List.length_drop]; omega)]
      · rw [if_neg hend, Nat.add_sub_cancel_left,
          copySlice_eq_drop_take st.allMessages limit offset (by omega)]
  refine ⟨key, ?_, ?_⟩
  · intro st offset limit hoff
    rw [key, List.drop_eq_nil_of_le hoff, List.take_nil]
  · intro st h5
    constructor
    · rw [key]
      match hl : st.allMessages, h5 with
      | [a, b, c, d, e], _ => simp
    · rw [key, List.drop_eq_nil_of_le (by omega), List.take_nil]

/-- **C6.** Cross-chain send semantics:
(1) a cross-chain send whose destination chain id equals the local chain id is
rejected with `InvalidRecipient` (for a paying caller with a valid recipient
and nonempty message, the earlier checks);
(2) a successful cross-chain send appends one record tagged
`crossChain = true` to the sender's sent list and to the global list, and
leaves every address's received list untouched;
(3) only the same-chain `sendMessage` appends to the recipient's received
list (one record, tagged `crossChain = false`). -/
theorem c6_crosschain_send :
    (∀ (st : UniversalState) (caller recipient : Addr)
       (d : Nat) (message : String) (ts chainid : Nat),
      hasFeaturePayment caller st.dtoken = true → recipient ≠ 0 →
      message ≠ "" → d = chainid →
      sendCrossChainMessage caller d recipient message ts chainid st =
        .error .InvalidRecipient) ∧
    (∀ (st st' : UniversalState) (caller recipient : Addr)
       (d : Nat) (message : String) (ts chainid : Nat),
      sendCrossChainMessage caller d recipient message ts chainid st = .ok st' →
      ∃ m : Message, m.crossChain = true ∧ m.sender = caller ∧
        st'.userMessages caller = st.userMessages caller ++ [m] ∧
        st'.allMessages = st.allMessages ++ [m] ∧
        ∀ a, st'.receivedMessages a = st.receivedMessages a) ∧
    (∀ (st st' : UniversalState) (caller recipient : Addr)
       (message : String) (ts chainid : Nat),
      sendMessage caller recipient message ts chainid st = .ok st' →
      ∃ m : Message, m.crossChain = false ∧
        st'.receivedMessages recipient = st.receivedMessages recipient ++ [m]) := by
  refine ⟨?_, ?_, ?_⟩
  · intro st caller recipient d message ts chainid hpay hrec hmsg hd
    simp [sendCrossChainMessage, hpay, hrec, hmsg, hd]
  · intro st st' caller recipient d message ts chainid h
    rw [sendCrossChainMessage] at h
    repeat' split at h
    all_goals cases h
    refine ⟨{ sender := caller, recipient := recipient, content := message,
              timestamp := ts, payment := MESSAGE_COST, crossChain := true,
              destinationChain := d }, rfl, rfl, by simp, rfl, fun a => rfl⟩
  · intro st st' caller recipient message ts chainid h
    rw [sendMessage] at h
    repeat' split at h
    all_goals cases h
    refine ⟨{ sender := caller, recipient := recipient, content := message,
              timestamp := ts, payment := MESSAGE_COST, crossChain := false,
              destinationChain := chainid }, rfl, by simp⟩

/-- Keep the post-state of a Universal call, or the pre-state on revert. -/
def uApply (r : Except UniversalError UniversalState) (st : UniversalState) :
    UniversalState :=
  match r with
  | .ok s => s
  | .error _ => st

/-- A concrete Universal deployment: DToken state `w0` (user 7 has exactly one
feature credit, contract address 9 is authorized), Universal at address 9,
no messages yet. -/
def u0 : UniversalState :=
  { dtoken := w0
    selfAddr := 9
    userMessages := fun _ => []
    receivedMessages := fun _ => []
    allMessages := [] }

/-- `u0` after a successful cross-chain send from 7 to 8 on chain 97476 with
destination chain 1. -/
def u1 : UniversalState :=
  uApply (sendCrossChainMessage 7 1 8 "hi" 100 97476 u0) u0

/-- `u0` after a successful same-chain send from 7 to 8. -/
def u2 : UniversalState :=
  uApply (sendMessage 7 8 "yo" 100 97476 u0) u0

/-- Witness for C6 at concrete inputs: on `u0`, a cross-chain send from 7 with
destination chain = local chain 97476 reverts with `InvalidRecipient`; the
successful cross-chain send producing `u1` appends a `crossChain = true`
record to 7's sent list and the global list and touches no received list; the
successful same-chain send producing `u2` appends to 8's received list. -/
theorem c6_crosschain_send_witness :
    sendCrossChainMessage 7 97476 8 "hi" 100 97476 u0 =
      .error .InvalidRecipient ∧
    (∃ m : Message, m.crossChain = true ∧ m.sender = 7 ∧
      u1.userMessages 7 = u0.userMessages 7 ++ [m] ∧
      u1.allMessages = u0.allMessages ++ [m] ∧
      ∀ a, u1.receivedMessages a = u0.receivedMessages a) ∧
    (∃ m : Message, m.crossChain = false ∧
      u2.receivedMessages 8 = u0.receivedMessages 8 ++ [m]) := by
  refine ⟨?_, ?_, ?_⟩
  · exact c6_crosschain_send.1 u0 7 8 97476 "hi" 100 97476 (by decide)
      (by decide) (by decide) rfl
  · exact c6_crosschain_send.2.1 u0 u1 7 8 1 "hi" 100 97476 rfl
  · exact c6_crosschain_send.2.2 u0 u2 7 8 "yo" 100 97476 rfl

end Universal

namespace Tokenomics

open DToken

/-- Revert reasons of the Tokenomics contract (`require` messages and the
Ownable guard). -/
inductive TokenomicsError where
  | InsufficientPayment
  | InvalidTokenAddress
  | InvalidRequestIndex
  | AlreadyCompleted
  | OnlyOwner
  | DTokenRevert (e : DTokenError)
deriving DecidableEq, Repr

/-- The `TokenomicsRequest` struct. -/
structure TokenomicsRequest where
  user : Addr
  tokenAddress : String
  payment : Nat
  completed : Bool
  healthScore : Nat
  analysis : String
  timestamp : Nat
deriving DecidableEq, Repr, Inhabited

/-- `ANALYSIS_COST = 0.0001 ether` in wei. -/
def ANALYSIS_COST : Nat := 100000000000000

/-- Storage of the Tokenomics contract, with its owner, its own address and
the DToken it talks to. -/
structure TokenomicsState where
  contractOwner : Addr
  selfAddr : Addr
  dtoken : DTokenState
  userRequests : Addr → List TokenomicsRequest

/-- `requestTokenomicsAnalysis(tokenAddress)`: `requirePayment`, empty-target
check, `dToken.useFeature(msg.sender)`, then a pending record is appended. -/
def requestTokenomicsAnalysis (caller : Addr) (tokenAddress : String)
    (now : Nat) (st : TokenomicsState) :
    Except TokenomicsError TokenomicsState :=
  if hasFeaturePayment caller st.dtoken = false then .error .InsufficientPayment
  else if tokenAddress = "" then .error .InvalidTokenAddress
  else match useFeature st.selfAddr caller st.dtoken with
    | .error e => .error (.DTokenRevert e)
    | .ok dt' =>
      .ok { st with
        dtoken := dt',
        userRequests := fun a =>
          if a = caller then
            st.userRequests a ++
              [{ user := caller, tokenAddress := tokenAddress,
                 payment := ANALYSIS_COST, completed := false, healthScore := 0,
                 analysis := "", timestamp := now }]
          else st.userRequests a }

/-- `completeTokenomicsAnalysis(user, requestIndex, healthScore, analysis)`
(onlyOwner): `require(requestIndex < userRequests[user].length)`,
`require(!completed)`, then sets `completed := true` and stores the score and
the analysis text. -/
def completeTokenomicsAnalysis (caller user : Addr)
    (requestIndex healthScore : Nat) (analysis : String)
    (st : TokenomicsState) : Except TokenomicsError TokenomicsState :=
  if caller ≠ st.contractOwner then .error .OnlyOwner
  else if (st.userRequests user).length ≤ requestIndex then
    .error .InvalidRequestIndex
  else if ((st.userRequests user).getD requestIndex default).completed then
    .error .AlreadyCompleted
  else .ok { st with
    userRequests := fun a =>
      if a = user then
        (st.userRequests a).set requestIndex
          { (st.userRequests a).getD requestIndex default with
            completed := true, healthScore := healthScore,
            analysis := analysis }
      else st.userRequests a }

end Tokenomics

namespace ContractAnalysis

open DToken

/-- Revert reasons of the ContractAnalysis contract. -/
inductive AnalysisError where
  | InsufficientPayment
  | InvalidContractAddress
  | InvalidRequestIndex
  | AlreadyCompleted
  | OnlyOwner
  | DTokenRevert (e : DTokenError)
deriving DecidableEq, Repr

/-- The `AnalysisRequest` struct. -/
structure AnalysisRequest where
  user : Addr
  contractAddress : String
  payment : Nat
  completed : Bool
  riskScore : Nat
  analysis : String
  timestamp : Nat
deriving DecidableEq, Repr, Inhabited

/-- `ANALYSIS_COST = 0.0001 ether` in wei. -/
def ANALYSIS_COST : Nat := 100000000000000

/-- Storage of the ContractAnalysis contract. -/
structure AnalysisState where
  contractOwner : Addr
  selfAddr : Addr
  dtoken : DTokenState
  userRequests : Addr → List AnalysisRequest

/-- `requestContractAnalysis(contractAddress)`: `requirePayment`, empty-target
check, `dToken.useFeature(msg.sender)`, then a pending record is appended. -/
def requestContractAnalysis (caller : Addr) (contractAddress : String)
    (now : Nat) (st : AnalysisState) : Except AnalysisError AnalysisState :=
  if hasFeaturePayment caller st.dtoken = false then .error .InsufficientPayment
  else if contractAddress = "" then .error .InvalidContractAddress
  else match useFeature st.selfAddr caller st.dtoken with
    | .error e => .error (.DTokenRevert e)
    | .ok dt' =>
      .ok { st with
        dtoken := dt',
        userRequests := fun a =>
          if a = caller then
            st.userRequests a ++
              [{ user := caller, contractAddress := contractAddress,
                 payment := ANALYSIS_COST, completed := false, riskScore := 0,
                 analysis := "", timestamp := now }]
          else st.userRequests a }

/-- `completeAnalysis(user, requestIndex, riskScore, analysis)` (onlyOwner):
`require(requestIndex < userRequests[user].length)`, `require(!completed)`,
then sets `completed := true` and stores the score and the analysis text. -/
def completeAnalysis (caller user : Addr) (requestIndex riskScore : Nat)
    (analysis : String) (st : AnalysisState) :
    Except AnalysisError AnalysisState :=
  if caller ≠ st.contractOwner then .error .OnlyOwner
  else if (st.userRequests user).length ≤ requestIndex then
    .error .InvalidRequestIndex
  else if ((st.userRequests user).getD requestIndex default).completed then
    .error .AlreadyCompleted
  else .ok { st with
    userRequests := fun a =>
      if a = user then
        (st.userRequests a).set requestIndex
          { (st.userRequests a).getD requestIndex default with
            completed := true, riskScore := riskScore, analysis := analysis }
      else st.userRequests a }

end ContractAnalysis

open DToken in
/-- **C3.** A completion is accepted at most once per record:
(1)/(2) for both request logs (Tokenomics and ContractAnalysis), if the record
at `(user, i)` already has `completed = true`, an owner call to the completion
entry point for `(user, i)` reverts with `AlreadyCompleted` — a revert, so the
stored score and analysis text are unchanged;
(3)/(4) a completion succeeds only on a record with `completed = false` and
sets it to `true`, so the stored score/text are mutated at most once after
creation. -/
theorem c3_complete_only_once :
    (∀ (st : Tokenomics.TokenomicsState) (caller user : Addr)
       (i score : Nat) (text : String),
      caller = st.contractOwner → i < (st.userRequests user).length →
      ((st.userRequests user).getD i default).completed = true →
      Tokenomics.completeTokenomicsAnalysis caller user i score text st =
        .error .AlreadyCompleted) ∧
    (∀ (st : ContractAnalysis.AnalysisState) (caller user : Addr)
       (i score : Nat) (text : String),
      caller = st.contractOwner → i < (st.userRequests user).length →
      ((st.userRequests user).getD i default).completed = true →
      ContractAnalysis.completeAnalysis caller user i score text st =
        .error .AlreadyCompleted) ∧
    (∀ (st st' : Tokenomics.TokenomicsState) (caller user : Addr)
       (i score : Nat) (text : String),
      Tokenomics.completeTokenomicsAnalysis caller user i score text st =
        .ok st' →
      ((st.userRequests user).getD i default).completed = false ∧
      ((st'.userRequests user).getD i default).completed = true ∧
      ((st'.userRequests user).getD i default).healthScore = score ∧
      ((st'.userRequests user).getD i default).analysis = text) ∧
    (∀ (st st' : ContractAnalysis.AnalysisState) (caller user : Addr)
       (i score : Nat) (text : String),
      ContractAnalysis.completeAnalysis caller user i score text st = .ok st' →
      ((st.userRequests user).getD i default).completed = false ∧
      ((st'.userRequests user).getD i default).completed = true ∧
      ((st'.userRequests user).getD i default).riskScore = score ∧
      ((st'.userRequests user).getD i default).analysis = text) := by
  refine ⟨?_, ?_, ?_, ?_⟩
  · intro st caller user i score text hown hlen hdone
    subst hown
    rw [Tokenomics.completeTokenomicsAnalysis, if_neg (by simp),
      if_neg (Nat.not_le.2 hlen), if_pos hdone]
  · intro st caller user i score text hown hlen hdone
    subst hown
    rw [ContractAnalysis.completeAnalysis, if_neg (by simp),
      if_neg (Nat.not_le.2 hlen), if_pos hdone]
  · intro st st' caller user i score text h
    rw [Tokenomics.completeTokenomicsAnalysis] at h
    repeat' split at h
    all_goals cases h
    rename_i hown hlen hdone
    have hi : i < (st.userRequests user).length := by omega
    refine ⟨by simpa using hdone, ?_, ?_, ?_⟩
    all_goals
      simp [List.getD_eq_getElem?_getD, List.getElem?_set_self hi]
  · intro st st' caller user i score text h
    rw [ContractAnalysis.completeAnalysis] at h
    repeat' split at h
    all_goals cases h
    rename_i hown hlen hdone
    have hi : i < (st.userRequests user).length := by omega
    refine ⟨by simpa using hdone, ?_, ?_, ?_⟩
    all_goals
      simp [List.getD_eq_getElem?_getD, List.getElem?_set_self hi]

namespace Tokenomics

/-- Keep the post-state of a Tokenomics call, or the pre-state on revert. -/
def tApply (r : Except TokenomicsError TokenomicsState)
    (st : TokenomicsState) : TokenomicsState :=
  match r with
  | .ok s => s
  | .error _ => st

/-- A concrete Tokenomics deployment over DToken state `w0` (user 7 holds one
feature credit; contract address 9 is authorized). -/
def t0 : TokenomicsState :=
  { contractOwner := 1, selfAddr := 9, dtoken := DToken.w0,
    userRequests := fun _ => [] }

/-- `t0` after user 7 requests an analysis of target `"0xT"`. -/
def t1 : TokenomicsState := tApply (requestTokenomicsAnalysis 7 "0xT" 100 t0) t0

/-- `t1` after the owner completes request 0 with score 82. -/
def t2 : TokenomicsState :=
  tApply (completeTokenomicsAnalysis 1 7 0 82 "low risk" t1) t1

end Tokenomics

namespace ContractAnalysis

/-- Keep the post-state of a ContractAnalysis call, or the pre-state on
revert. -/
def caApply (r : Except AnalysisError AnalysisState)
    (st : AnalysisState) : AnalysisState :=
  match r with
  | .ok s => s
  | .error _ => st

/-- A concrete ContractAnalysis deployment over DToken state `w0`. -/
def g0 : AnalysisState :=
  { contractOwner := 1, selfAddr := 9, dtoken := DToken.w0,
    userRequests := fun _ => [] }

/-- `g0` after user 7 requests an analysis of target `"0xC"`. -/
def g1 : AnalysisState := caApply (requestContractAnalysis 7 "0xC" 100 g0) g0

/-- `g1` after the owner completes request 0 with score 40. -/
def g2 : AnalysisState := caApply (completeAnalysis 1 7 0 40 "med risk" g1) g1

end ContractAnalysis

/-- Witness for C3 at concrete inputs: in both logs, a record created by a
request and completed once by the owner rejects a second completion with
`AlreadyCompleted`, and the stored score survives. -/
theorem c3_complete_only_once_witness :
    Tokenomics.completeTokenomicsAnalysis 1 7 0 50 "x" Tokenomics.t2 =
      .error .AlreadyCompleted ∧
    ContractAnalysis.completeAnalysis 1 7 0 50 "x" ContractAnalysis.g2 =
      .error .AlreadyCompleted := by
  constructor
  · exact c3_complete_only_once.1 Tokenomics.t2 1 7 0 50 "x" rfl (by decide)
      (by decide)
  · exact c3_complete_only_once.2.1 ContractAnalysis.g2 1 7 0 50 "x" rfl
      (by decide) (by decide)

namespace Universal

/-- A concrete Universal state whose global list has 5 messages (contents
"m0".."m4"). -/
def u5 : UniversalState :=
  { dtoken := DToken.w0
    selfAddr := 9
    userMessages := fun _ => []
    receivedMessages := fun _ => []
    allMessages :=
      [{ sender := 7, recipient := 8, content := "m0", timestamp := 0,
         payment := MESSAGE_COST, crossChain := false, destinationChain := 97476 },
       { sender := 7, recipient := 8, content := "m1", timestamp := 1,
         payment := MESSAGE_COST, crossChain := false, destinationChain := 97476 },
       { sender := 7, recipient := 8, content := "m2", timestamp := 2,
         payment := MESSAGE_COST, crossChain := false, destinationChain := 97476 },
       { sender := 7, recipient := 8, content := "m3", timestamp := 3,
         payment := MESSAGE_COST, crossChain := false, destinationChain := 97476 },
       { sender := 7, recipient := 8, content := "m4", timestamp := 4,
         payment := MESSAGE_COST, crossChain := false, destinationChain := 97476 }] }

/-- Witness for C5 at concrete inputs: on the 5-entry list of `u5`,
`getAllMessages 3 10` returns exactly entries 3 and 4, and
`getAllMessages 10 5` (offset past the end) returns the empty sequence. -/
theorem c5_getAllMessages_pagination_witness :
    getAllMessages 3 10 u5 =
      [u5.allMessages.getD 3 default, u5.allMessages.getD 4 default] ∧
    getAllMessages 10 5 u5 = [] ∧
    getAllMessages 7 2 u5 = [] := by
  refine ⟨(c5_getAllMessages_pagination.2.2 u5 rfl).1,
    (c5_getAllMessages_pagination.2.2 u5 rfl).2,
    c5_getAllMessages_pagination.2.1 u5 7 2 (by decide)⟩

end Universal

namespace Monitoring

open DToken

/-- `MONITORING_COST = 0.0001 ether` in wei. -/
def MONITORING_COST : Nat := 100000000000000

/-- Revert reasons of the Monitoring contract. -/
inductive MonitoringError where
  | InsufficientPayment
  | InvalidTokenAddress
  | InvalidRequestIndex
  | AlreadyStopped
  | OnlyOwner
  | DTokenRevert (e : DTokenError)
deriving DecidableEq, Repr

/-- The `MonitoringRequest` struct. -/
structure MonitoringRequest where
  user : Addr
  tokenAddress : String
  payment : Nat
  active : Bool
  alertThreshold : Nat
  timestamp : Nat
  alertCount : Nat
deriving DecidableEq, Repr, Inhabited

/-- One `AlertTriggered` event. -/
structure AlertEvent where
  user : Addr
  tokenAddress : String
  alertType : String
  value : Nat
deriving DecidableEq, Repr

/-- Storage of the Monitoring contract: per-user subscription lists and the
reverse index `tokenMonitors : tokenAddress => users monitoring it`. -/
structure MonitoringState where
  contractOwner : Addr
  selfAddr : Addr
  dtoken : DTokenState
  userMonitoring : Addr → List MonitoringRequest
  tokenMonitors : String → List Addr

/-- `requestMonitoring(tokenAddress, alertThreshold)`: `requirePayment`,
empty-target check, `dToken.useFeature(msg.sender)`, then an active
subscription with `alertCount = 0` is appended to the caller's list AND the
caller is appended to the token's subscriber index (no deduplication). -/
def requestMonitoring (caller : Addr) (tokenAddress : String)
    (alertThreshold now : Nat) (st : MonitoringState) :
    Except MonitoringError MonitoringState :=
  if hasFeaturePayment caller st.dtoken = false then .error .InsufficientPayment
  else if tokenAddress = "" then .error .InvalidTokenAddress
  else match useFeature st.selfAddr caller st.dtoken with
    | .error e => .error (.DTokenRevert e)
    | .ok dt' =>
      .ok { st with
        dtoken := dt',
        userMonitoring := fun a =>
          if a = caller then
            st.userMonitoring a ++
              [{ user := caller, tokenAddress := tokenAddress,
                 payment := MONITORING_COST, active := true,
                 alertThreshold := alertThreshold, timestamp := now,
                 alertCount := 0 }]
          else st.userMonitoring a,
        tokenMonitors := fun t =>
          if t = tokenAddress then st.tokenMonitors t ++ [caller]
          else st.tokenMonitors t }

/-- The inner-loop condition of `triggerAlert`:
`keccak256(requests[j].tokenAddress) == keccak256(tokenAddress) &&
requests[j].active` (string hashing modelled as string equality). -/
def matchesTarget (tokenAddress : String) (r : MonitoringRequest) : Bool :=
  r.tokenAddress == tokenAddress && r.active

/-- Add `n` to the alert counter of a request when it matches the target. -/
def addAlerts (tokenAddress : String) (n : Nat) (r : MonitoringRequest) :
    MonitoringRequest :=
  if matchesTarget tokenAddress r then { r with alertCount := r.alertCount + n }
  else r

/-- One pass of the inner loop of `triggerAlert` over a user's subscription
list: every matching active request gets `alertCount += 1`. -/
def bumpRequests (tokenAddress : String) (reqs : List MonitoringRequest) :
    List MonitoringRequest :=
  reqs.map (addAlerts tokenAddress 1)

/-- The outer loop of `triggerAlert`: for each entry `m` of the subscriber
index (in order, duplicates included), bump `m`'s matching active requests and
emit one `AlertTriggered` event per matching active request. -/
def alertLoop (tokenAddress alertType : String) (value : Nat) :
    List Addr → (Addr → List MonitoringRequest) → List AlertEvent →
    ((Addr → List MonitoringRequest) × List AlertEvent)
  | [], f, evs => (f, evs)
  | m :: ms, f, evs =>
      alertLoop tokenAddress alertType value ms
        (fun a => if a = m then bumpRequests tokenAddress (f a) else f a)
        (evs ++ ((f m).filter (matchesTarget tokenAddress)).map
          (fun _ => { user := m, tokenAddress := tokenAddress,
                      alertType := alertType, value := value }))

/-- `triggerAlert(tokenAddress, alertType, value)` (onlyOwner): iterates
`tokenMonitors[tokenAddress]` and, per entry, every matching active request of
that user gets `alertCount += 1` with one event emitted. Returns the new state
and the emitted events. -/
def triggerAlert (caller : Addr) (tokenAddress alertType : String)
    (value : Nat) (st : MonitoringState) :
    Except MonitoringError (MonitoringState × List AlertEvent) :=
  if caller ≠ st.contractOwner then .error .OnlyOwner
  else
    .ok ({ st with userMonitoring :=
            (alertLoop tokenAddress alertType value
              (st.tokenMonitors tokenAddress) st.userMonitoring []).1 },
         (alertLoop tokenAddress alertType value
            (st.tokenMonitors tokenAddress) st.userMonitoring []).2)

/-- `stopMonitoring(requestIndex)`: index check, already-stopped check, then
flips the caller's own record's `active` to false. -/
def stopMonitoring (caller : Addr) (requestIndex : Nat)
    (st : MonitoringState) : Except MonitoringError MonitoringState :=
  if (st.userMonitoring caller).length ≤ requestIndex then
    .error .InvalidRequestIndex
  else if ((st.userMonitoring caller).getD requestIndex default).active = false
    then .error .AlreadyStopped
  else .ok { st with
    userMonitoring := fun a =>
      if a = caller then
        (st.userMonitoring a).set requestIndex
          { (st.userMonitoring a).getD requestIndex default with
            active := false }
      else st.userMonitoring a }

/-- `addAlerts` with increment 0 is the identity. -/
theorem addAlerts_zero (t : String) (r : MonitoringRequest) :
    addAlerts t 0 r = r := by
  cases r
  unfold addAlerts
  split <;> rfl

/-- Bumping the counter does not change whether a request matches. -/
theorem matchesTarget_addAlerts (t : String) (n : Nat)
    (r : MonitoringRequest) :
    matchesTarget t (addAlerts t n r) = matchesTarget t r := by
  cases r
  unfold addAlerts matchesTarget
  split <;> rfl

/-- Two rounds of counting compose additively. -/
theorem addAlerts_comp (t : String) (n : Nat) (r : MonitoringRequest) :
    addAlerts t n (addAlerts t 1 r) = addAlerts t (n + 1) r := by
  by_cases h : matchesTarget t r = true
  · have h2 : matchesTarget t (addAlerts t 1 r) = true := by
      rw [matchesTarget_addAlerts, h]
    unfold addAlerts
    rw [if_pos h, if_pos h]
    have h3 :
        matchesTarget t { r with alertCount := r.alertCount + 1 } = true := by
      have := h2
      unfold addAlerts at this
      rwa [if_pos h] at this
    rw [if_pos h3]
    cases r
    simp
    omega
  · unfold addAlerts
    rw [if_neg h, if_neg h, if_neg h]

/-- The storage component of the alert loop: a user's list is mapped by
`addAlerts` with increment equal to the user's multiplicity in the iterated
subscriber index. -/
theorem alertLoop_fst (t k : String) (v : Nat) :
    ∀ (ms : List Addr) (f : Addr → List MonitoringRequest)
      (evs : List AlertEvent) (u : Addr),
    (alertLoop t k v ms f evs).1 u = (f u).map (addAlerts t (ms.count u)) := by
  intro ms
  induction ms with
  | nil =>
    intro f evs u
    show f u = (f u).map (addAlerts t ([].count u))
    rw [List.count_nil]
    have hfun : addAlerts t 0 = fun r => r := funext (addAlerts_zero t)
    rw [hfun, List.map_id']
  | cons m ms ih =>
    intro f evs u
    rw [alertLoop, ih]
    by_cases hu : u = m
    · subst hu
      rw [if_pos rfl, bumpRequests, List.map_map, List.count_cons_self]
      apply List.map_congr_left
      intro r _
      exact addAlerts_comp t (List.count u ms) r
    · rw [if_neg hu, List.count_cons_of_ne hu]

/-- Bumping a list does not change how many of its entries match. -/
theorem filter_bumpRequests_length (t : String)
    (l : List MonitoringRequest) :
    ((bumpRequests t l).filter (matchesTarget t)).length =
      (l.filter (matchesTarget t)).length := by
  rw [bumpRequests, List.filter_map, List.length_map]
  congr 1
  apply List.filter_congr
  intro r _
  show matchesTarget t (addAlerts t 1 r) = matchesTarget t r
  exact matchesTarget_addAlerts t 1 r

/-- The event component of the alert loop: one event per (index entry,
matching active request of that entry's user) pair. -/
theorem alertLoop_snd (t k : String) (v : Nat) :
    ∀ (ms : List Addr) (f : Addr → List MonitoringRequest)
      (evs : List AlertEvent),
    (alertLoop t k v ms f evs).2.length =
      evs.length +
        (ms.map (fun m => ((f m).filter (matchesTarget t)).length)).sum := by
  intro ms
  induction ms with
  | nil => intro f evs; simp [alertLoop]
  | cons m ms ih =>
    intro f evs
    rw [alertLoop, ih]
    have hcong : ∀ m' ∈ ms,
        (((fun a => if a = m then bumpRequests t (f a) else f a) m').filter
          (matchesTarget t)).length =
        ((f m').filter (matchesTarget t)).length := by
      intro m' _
      show (List.filter (matchesTarget t)
          (if m' = m then bumpRequests t (f m') else f m')).length =
        (List.filter (matchesTarget t) (f m')).length
      by_cases hm : m' = m
      · subst hm
        rw [if_pos rfl, filter_bumpRequests_length]
      · rw [if_neg hm]
    rw [List.map_congr_left hcong, List.length_append, List.length_map,
      List.map_cons, List.sum_cons]
    omega

end Monitoring

namespace Monitoring

open DToken

/-- **C7 (amended).** An owner call to `triggerAlert(t, kind, value)`
increments the alert counter of every active subscription matching `t` by the
multiplicity of its owner in `tokenMonitors[t]` (one per `requestMonitoring`
call that user made for `t`), and emits that many events per matching
subscription — so exactly one increment and one event per subscription when
each subscriber occurs exactly once in the index. Inactive subscriptions and
subscriptions for other targets are unchanged. -/
theorem c7_triggerAlert_fanout (st : MonitoringState) (caller : Addr)
    (t kind : String) (v : Nat) (hown : caller = st.contractOwner) :
    ∃ (st' : MonitoringState) (evs : List AlertEvent),
      triggerAlert caller t kind v st = .ok (st', evs) ∧
      (∀ u, st'.userMonitoring u =
        (st.userMonitoring u).map
          (addAlerts t ((st.tokenMonitors t).count u))) ∧
      (∀ u j, j < (st.userMonitoring u).length →
        ((st'.userMonitoring u).getD j default).alertCount =
          ((st.userMonitoring u).getD j default).alertCount +
          (if matchesTarget t ((st.userMonitoring u).getD j default) = true
           then (st.tokenMonitors t).count u else 0)) ∧
      (∀ u j, j < (st.userMonitoring u).length →
        matchesTarget t ((st.userMonitoring u).getD j default) = false →
        (st'.userMonitoring u).getD j default =
          (st.userMonitoring u).getD j default) ∧
      evs.length = ((st.tokenMonitors t).map
        (fun m => ((st.userMonitoring m).filter (matchesTarget t)).length)).sum := by
  subst hown
  have hmap : ∀ u,
      ((alertLoop t kind v (st.tokenMonitors t) st.userMonitoring []).1) u =
        (st.userMonitoring u).map
          (addAlerts t ((st.tokenMonitors t).count u)) :=
    alertLoop_fst t kind v (st.tokenMonitors t) st.userMonitoring []
  refine ⟨{ st with userMonitoring :=
      (alertLoop t kind v (st.tokenMonitors t) st.userMonitoring []).1 },
    (alertLoop t kind v (st.tokenMonitors t) st.userMonitoring []).2,
    ?_, hmap, ?_, ?_, ?_⟩
  · rw [triggerAlert, if_neg (by simp)]
  · intro u j hj
    show (((alertLoop t kind v (st.tokenMonitors t) st.userMonitoring []).1
        u).getD j default).alertCount = _
    rw [hmap u,
      List.getD_eq_getElem _ default (by rw [List.length_map]; exact hj),
      List.getElem_map, List.getD_eq_getElem _ default hj]
    by_cases hmt :
        matchesTarget t ((st.userMonitoring u).get ⟨j, hj⟩) = true
    · rw [addAlerts, if_pos (by simpa using hmt), if_pos (by simpa using hmt)]
    · rw [addAlerts, if_neg (by simpa using hmt), if_neg (by simpa using hmt)]
      omega
  · intro u j hj hmt
    show ((alertLoop t kind v (st.tokenMonitors t) st.userMonitoring []).1
        u).getD j default = _
    rw [hmap u,
      List.getD_eq_getElem _ default (by rw [List.length_map]; exact hj),
      List.getElem_map, List.getD_eq_getElem _ default hj]
    rw [addAlerts, if_neg (by simp_all)]
  · rw [alertLoop_snd t kind v (st.tokenMonitors t) st.userMonitoring []]
    simp

/-- Keep the post-state of a Monitoring call, or the pre-state on revert. -/
def mApply (r : Except MonitoringError MonitoringState)
    (st : MonitoringState) : MonitoringState :=
  match r with
  | .ok s => s
  | .error _ => st

/-- A DToken state crediting user 7 with two feature units; contract address 9
is authorized. -/
def wc2 : DTokenState :=
  { owner := 1
    authorizedContracts := fun a => decide (a = 9)
    userPayments := fun a => if a = 7 then 2 * FEATURE_COST else 0
    userFeatureUsage := fun _ => 0
    contractBalance := 2 * FEATURE_COST }

/-- A concrete Monitoring deployment over `wc2`, Monitoring at address 9. -/
def m0 : MonitoringState :=
  { contractOwner := 1, selfAddr := 9, dtoken := wc2,
    userMonitoring := fun _ => [], tokenMonitors := fun _ => [] }

/-- `m0` after user 7's first monitoring request for token `"T"`. -/
def m1 : MonitoringState := mApply (requestMonitoring 7 "T" 100 5 m0) m0

/-- `m1` after user 7's second monitoring request for the same token `"T"`
(the subscriber index now holds 7 twice). -/
def m2 : MonitoringState := mApply (requestMonitoring 7 "T" 200 6 m1) m1

/-- Result of one owner `triggerAlert` on `m2`. -/
def m3 : MonitoringState × List AlertEvent :=
  match triggerAlert 1 "T" "PRICE_SPIKE" 42 m2 with
  | .ok p => p
  | .error _ => (m2, [])

/-- **C7 is false as stated**: in the reachable state `m2` (user 7 called
`requestMonitoring` twice for token `"T"`, so the subscriber index is
`[7, 7]`), subscription `(7, 0)` is active with target `"T"` and counter 0,
yet one single owner `triggerAlert("T", ...)` raises its counter to 2 — not by
exactly one — and emits 4 events for the 2 matching subscriptions. -/
theorem c7_exactly_once_counterexample :
    ((m2.userMonitoring 7).getD 0 default).tokenAddress = "T" ∧
    ((m2.userMonitoring 7).getD 0 default).active = true ∧
    ((m2.userMonitoring 7).getD 0 default).alertCount = 0 ∧
    m2.tokenMonitors "T" = [7, 7] ∧
    triggerAlert 1 "T" "PRICE_SPIKE" 42 m2 = .ok m3 ∧
    ((m3.1.userMonitoring 7).getD 0 default).alertCount = 2 ∧
    m3.2.length = 4 := by
  exact ⟨by decide, by decide, by decide, by decide, rfl, by decide, by decide⟩

/-- Witness for the amended C7 at concrete inputs: the owner triggers an alert
for `"T"` on `m2`; every conclusion of the fan-out theorem is instantiated at
that state. -/
theorem c7_triggerAlert_fanout_witness :
    ∃ (st' : MonitoringState) (evs : List AlertEvent),
      triggerAlert 1 "T" "PRICE_SPIKE" 42 m2 = .ok (st', evs) ∧
      (∀ u, st'.userMonitoring u =
        (m2.userMonitoring u).map
          (addAlerts "T" ((m2.tokenMonitors "T").count u))) ∧
      (∀ u j, j < (m2.userMonitoring u).length →
        ((st'.userMonitoring u).getD j default).alertCount =
          ((m2.userMonitoring u).getD j default).alertCount +
          (if matchesTarget "T" ((m2.userMonitoring u).getD j default) = true
           then (m2.tokenMonitors "T").count u else 0)) ∧
      (∀ u j, j < (m2.userMonitoring u).length →
        matchesTarget "T" ((m2.userMonitoring u).getD j default) = false →
        (st'.userMonitoring u).getD j default =
          (m2.userMonitoring u).getD j default) ∧
      evs.length = ((m2.tokenMonitors "T").map
        (fun m => ((m2.userMonitoring m).filter (matchesTarget "T")).length)).sum :=
  c7_triggerAlert_fanout m2 1 "T" "PRICE_SPIKE" 42 rfl

end Monitoring

namespace DomainManagement

open DToken

/-- Revert reasons of the DomainManagement contract. -/
inductive DomainError where
  | DomainNotExists
  | DomainAlreadyTokenized
  | NotDomainOwner
  | InsufficientPayment
  | InvalidDomainName
  | RightNotExists
  | RightExpired
  | OnlyOwner
  | DTokenRevert (e : DTokenError)
deriving DecidableEq, Repr

/-- The `Domain` struct, including its inner `rights` mapping
(`right name => address with that right`). -/
structure DomainRec where
  name : String
  owner : Addr
  isTokenized : Bool
  tokenizedAt : Nat
  rights : String → Addr
  isActive : Bool

/-- A never-written Solidity mapping slot: the zero-initialized struct. -/
def emptyDomain : DomainRec :=
  { name := "", owner := 0, isTokenized := false, tokenizedAt := 0,
    rights := fun _ => 0, isActive := false }

/-- The `DomainRights` grant-history struct. -/
structure DomainRights where
  rightName : String
  description : String
  holder : Addr
  grantedAt : Nat
  expiresAt : Nat
deriving DecidableEq, Repr, Inhabited

/-- Storage of the DomainManagement contract. -/
structure DomainState where
  contractOwner : Addr
  selfAddr : Addr
  dtoken : DTokenState
  domains : String → DomainRec
  domainRights : String → List DomainRights
  userDomains : Addr → List String
  allDomains : List String

/-- `tokenizeDomain(domainName)`: empty-name and already-tokenized checks,
`dToken.useFeature(msg.sender)`, then the domain record is initialized and the
name is appended to the global and the caller's domain lists. -/
def tokenizeDomain (caller : Addr) (domainName : String) (now : Nat)
    (st : DomainState) : Except DomainError DomainState :=
  if domainName = "" then .error .InvalidDomainName
  else if (st.domains domainName).isTokenized then .error .DomainAlreadyTokenized
  else match useFeature st.selfAddr caller st.dtoken with
    | .error e => .error (.DTokenRevert e)
    | .ok dt' =>
      .ok { st with
        dtoken := dt',
        domains := fun n =>
          if n = domainName then
            { st.domains n with
                name := domainName
                owner := caller
                isTokenized := true
                tokenizedAt := now
                isActive := true }
          else st.domains n,
        allDomains := st.allDomains ++ [domainName],
        userDomains := fun a =>
          if a = caller then st.userDomains a ++ [domainName]
          else st.userDomains a }

/-- `grantDomainRight(domainName, rightName, holder, duration)` with modifiers
`domainExists` then `onlyDomainOwner`: debits the ledger, computes
`expiresAt = duration == 0 ? 0 : now + duration`, sets the live rights map
entry and appends a history record. -/
def grantDomainRight (caller : Addr) (domainName rightName : String)
    (holder : Addr) (duration now : Nat) (st : DomainState) :
    Except DomainError DomainState :=
  if (st.domains domainName).name = "" then .error .DomainNotExists
  else if (st.domains domainName).owner ≠ caller then .error .NotDomainOwner
  else match useFeature st.selfAddr caller st.dtoken with
    | .error e => .error (.DTokenRevert e)
    | .ok dt' =>
      .ok { st with
        dtoken := dt',
        domains := fun n =>
          if n = domainName then
            { st.domains n with
              rights := fun r =>
                if r = rightName then holder else (st.domains n).rights r }
          else st.domains n,
        domainRights := fun n =>
          if n = domainName then
            st.domainRights n ++
              [{ rightName := rightName
                 description :=
                   "Right: " ++ rightName ++ " for domain: " ++ domainName
                 holder := holder
                 grantedAt := now
                 expiresAt := if duration = 0 then 0 else now + duration }]
          else st.domainRights n }

/-- `revokeDomainRight(domainName, rightName)`: clears the live map entry; the
history stays (append-only). -/
def revokeDomainRight (caller : Addr) (domainName rightName : String)
    (st : DomainState) : Except DomainError DomainState :=
  if (st.domains domainName).name = "" then .error .DomainNotExists
  else if (st.domains domainName).owner ≠ caller then .error .NotDomainOwner
  else if (st.domains domainName).rights rightName = 0 then
    .error .RightNotExists
  else .ok { st with
    domains := fun n =>
      if n = domainName then
        { st.domains n with
          rights := fun r =>
            if r = rightName then 0 else (st.domains n).rights r }
      else st.domains n }

/-- The lookup loop of `hasRight`: the FIRST history record whose right name
and holder match (the loop breaks at the first match; keccak256 string
comparison modelled as string equality). -/
def findRight (rights : List DomainRights) (rightName : String)
    (user : Addr) : Option DomainRights :=
  rights.find? (fun g => g.rightName == rightName && g.holder == user)

/-- `hasRight(domainName, rightName, user)` (view, `domainExists`): false
unless the live map's holder is `user`; then the first matching history grant
decides: true iff `expiresAt == 0 || expiresAt > now`. -/
def hasRight (domainName rightName : String) (user : Addr) (now : Nat)
    (st : DomainState) : Except DomainError Bool :=
  if (st.domains domainName).name = "" then .error .DomainNotExists
  else if (st.domains domainName).rights rightName ≠ user then .ok false
  else match findRight (st.domainRights domainName) rightName user with
    | some g => .ok (decide (g.expiresAt = 0 ∨ now < g.expiresAt))
    | none => .ok false

/-- Index of the first occurrence of `name` (the `transferDomain` removal loop
scans left to right and breaks at the first keccak match). -/
def firstIdx : List String → String → Option Nat
  | [], _ => none
  | x :: xs, name =>
    if x = name then some 0 else (firstIdx xs name).map (· + 1)

/-- The swap-with-last-and-pop removal of `transferDomain`: overwrite the
first occurrence with the last element, then drop the last element; no
occurrence means no change. -/
def swapRemove (l : List String) (name : String) : List String :=
  match firstIdx l name with
  | none => l
  | some i => (l.set i (l.getLastD "")).dropLast

/-- `userDomains[to].push(domainName)`. -/
def pushDomain (ud : Addr → List String) (dst : Addr) (name : String) :
    Addr → List String :=
  fun a => if a = dst then ud a ++ [name] else ud a

/-- `transferDomain(domainName, to)` with modifiers `domainExists` then
`onlyDomainOwner`: debits the ledger, reassigns the owner, pushes the name to
the new owner's list and then swap-removes it from the old owner's list. -/
def transferDomain (caller : Addr) (domainName : String) (dst : Addr)
    (st : DomainState) : Except DomainError DomainState :=
  if (st.domains domainName).name = "" then .error .DomainNotExists
  else if (st.domains domainName).owner ≠ caller then .error .NotDomainOwner
  else match useFeature st.selfAddr caller st.dtoken with
    | .error e => .error (.DTokenRevert e)
    | .ok dt' =>
      .ok { st with
        dtoken := dt',
        domains := fun n =>
          if n = domainName then { st.domains n with owner := dst }
          else st.domains n,
        userDomains := fun a =>
          if a = (st.domains domainName).owner then
            swapRemove (pushDomain st.userDomains dst domainName a) domainName
          else pushDomain st.userDomains dst domainName a }

end DomainManagement

namespace DomainManagement

open DToken

/-- `firstIdx` misses exactly when the name is absent. -/
theorem firstIdx_eq_none : ∀ (l : List String) (name : String),
    firstIdx l name = none ↔ name ∉ l := by
  intro l name
  induction l with
  | nil => simp [firstIdx]
  | cons x xs ih =>
    by_cases hx : x = name
    · subst hx
      simp [firstIdx]
    · rw [firstIdx, if_neg hx]
      constructor
      · intro h hmem
        rcases List.mem_cons.mp hmem with h1 | h2
        · exact hx h1.symm
        · have hnone : firstIdx xs name = none := by
            cases hfi : firstIdx xs name with
            | none => rfl
            | some j => rw [hfi] at h; exact absurd h (by simp)
          exact (ih.mp hnone) h2
      · intro h
        have hn : name ∉ xs := fun hm => h (List.mem_cons_of_mem _ hm)
        rw [ih.mpr hn]
        rfl

/-- Removing the single occurrence of `name` by swap-with-last-and-pop leaves
no occurrence (the moved last element is not `name`). -/
theorem count_swapRemove : ∀ (l : List String) (name : String),
    l.count name = 1 → (swapRemove l name).count name = 0 := by
  intro l name
  induction l with
  | nil => intro h; simp [List.count_nil] at h
  | cons x xs ih =>
    intro h
    by_cases hx : x = name
    · subst hx
      rw [List.count_cons_self] at h
      have hxs : xs.count x = 0 := by omega
      have hnmem : x ∉ xs := List.count_eq_zero.mp hxs
      rw [swapRemove,
        show firstIdx (x :: xs) x = some 0 from by rw [firstIdx, if_pos rfl]]
      show ((((x :: xs).getLastD "") :: xs).dropLast).count x = 0
      cases xs with
      | nil => rfl
      | cons y ys =>
        rw [List.dropLast_cons_of_ne_nil (by simp)]
        have hg2 : (x :: y :: ys).getLastD "" ∈ y :: ys := by
          rw [List.getLastD_cons, List.getLastD_cons]
          exact List.getLastD_mem_cons ys y
        have hgne : (x :: y :: ys).getLastD "" ≠ x := fun he => hnmem (he ▸ hg2)
        rw [List.count_cons]
        simp only [beq_iff_eq]
        rw [if_neg hgne]
        have hsub : ((y :: ys).dropLast).count x ≤ (y :: ys).count x :=
          (List.dropLast_sublist (y :: ys)).count_le x
        omega
    · rw [List.count_cons] at h
      simp only [beq_iff_eq] at h
      rw [if_neg hx] at h
      have hxs1 : xs.count name = 1 := by omega
      have hmem : name ∈ xs := List.count_pos_iff.mp (by omega)
      have hxs_ne : xs ≠ [] := by
        intro he
        subst he
        simp at hmem
      cases hfi : firstIdx xs name with
      | none => exact absurd ((firstIdx_eq_none xs name).mp hfi) (by simp [hmem])
      | some j =>
        have hkey : swapRemove (x :: xs) name = x :: swapRemove xs name := by
          rw [swapRemove, swapRemove, hfi,
            show firstIdx (x :: xs) name = some (j + 1) from by
              rw [firstIdx, if_neg hx, hfi]; rfl]
          obtain ⟨y, ys, rfl⟩ := List.exists_cons_of_ne_nil hxs_ne
          rw [List.getLastD_cons,
            show (y :: ys).getLastD x = (y :: ys).getLastD "" from by
              rw [List.getLastD_cons, List.getLastD_cons]]
          show ((x :: y :: ys).set (j + 1) ((y :: ys).getLastD "")).dropLast =
            x :: ((y :: ys).set j ((y :: ys).getLastD "")).dropLast
          rw [List.set_cons_succ, List.dropLast_cons_of_ne_nil]
          intro hcon
          have hlen := congrArg List.length hcon
          simp at hlen
        rw [hkey, List.count_cons]
        simp only [beq_iff_eq]
        rw [if_neg hx, ih hxs1]

/-- **C8.** After a successful `transferDomain(name, B)` from owner `A ≠ B`
(with `name` occurring once in A's list, at any position, and not in B's
list), `name` is present in B's `userDomains` list exactly once and absent
from A's list — the removal swap-pops, so A's surviving order need not be
preserved, but the occurrence counts are as stated. -/
theorem c8_transferDomain_userDomains (st st' : DomainState) (A B : Addr)
    (name : String) (hAB : A ≠ B)
    (hA : (st.userDomains A).count name = 1)
    (hB : (st.userDomains B).count name = 0)
    (h : transferDomain A name B st = .ok st') :
    (st'.userDomains B).count name = 1 ∧ name ∉ st'.userDomains A := by
  rw [transferDomain] at h
  repeat' split at h
  all_goals cases h
  rename_i hex hown scr dt' huse
  have hAowner : (st.domains name).owner = A := not_not.mp hown
  constructor
  · show (if B = (st.domains name).owner then
        swapRemove (pushDomain st.userDomains B name B) name
      else pushDomain st.userDomains B name B).count name = 1
    rw [hAowner, if_neg (Ne.symm hAB)]
    show (if B = B then st.userDomains B ++ [name]
        else st.userDomains B).count name = 1
    rw [if_pos rfl, List.count_append, hB]
    simp
  · show name ∉ (if A = (st.domains name).owner then
        swapRemove (pushDomain st.userDomains B name A) name
      else pushDomain st.userDomains B name A)
    rw [hAowner, if_pos rfl]
    show name ∉ swapRemove
        (if A = B then st.userDomains A ++ [name] else st.userDomains A) name
    rw [if_neg hAB]
    exact List.count_eq_zero.mp (count_swapRemove _ _ hA)

/-- **C4.** `hasRight` semantics on an existing domain:
(1) `hasRight(d, r, a)` is true iff the live rights map of `d` maps `r` to
`a` AND the first matching grant-history record (how the loop resolves "the
grant") has `expiresAt == 0 ∨ expiresAt > now`;
(2) when the history holds at most one grant record for `(r, a)` — so "the
grant" is unambiguous — the same holds with the grant quantified by plain
membership in the history;
(3) in particular, once `now > expiresAt` (with `expiresAt ≠ 0`) for the
matching record, the query returns false even though the grant-history array
still contains that record. -/
theorem c4_hasRight_semantics :
    (∀ (st : DomainState) (d r : String) (a : Addr) (now : Nat),
      (st.domains d).name ≠ "" →
      (hasRight d r a now st = .ok true ↔
        ((st.domains d).rights r = a ∧
          ∃ g, findRight (st.domainRights d) r a = some g ∧
            (g.expiresAt = 0 ∨ now < g.expiresAt)))) ∧
    (∀ (st : DomainState) (d r : String) (a : Addr) (now : Nat),
      (st.domains d).name ≠ "" →
      (∀ g1, g1 ∈ st.domainRights d → ∀ g2, g2 ∈ st.domainRights d →
        g1.rightName = r → g1.holder = a → g2.rightName = r → g2.holder = a →
        g1 = g2) →
      (hasRight d r a now st = .ok true ↔
        ((st.domains d).rights r = a ∧
          ∃ g, g ∈ st.domainRights d ∧ g.rightName = r ∧ g.holder = a ∧
            (g.expiresAt = 0 ∨ now < g.expiresAt)))) ∧
    (∀ (st : DomainState) (d r : String) (a : Addr) (now : Nat)
       (g : DomainRights),
      (st.domains d).name ≠ "" →
      findRight (st.domainRights d) r a = some g →
      g.expiresAt ≠ 0 → g.expiresAt < now →
      hasRight d r a now st = .ok false ∧ g ∈ st.domainRights d) := by
  have key : ∀ (st : DomainState) (d r : String) (a : Addr) (now : Nat),
      (st.domains d).name ≠ "" →
      (hasRight d r a now st = .ok true ↔
        ((st.domains d).rights r = a ∧
          ∃ g, findRight (st.domainRights d) r a = some g ∧
            (g.expiresAt = 0 ∨ now < g.expiresAt))) := by
    intro st d r a now hex
    rw [hasRight, if_neg hex]
    by_cases hr : (st.domains d).rights r ≠ a
    · rw [if_pos hr]
      constructor
      · intro hcon
        exact absurd hcon (by simp)
      · rintro ⟨h1, -⟩
        exact absurd h1 hr
    · rw [if_neg hr]
      push_neg at hr
      cases hfind : findRight (st.domainRights d) r a with
      | none =>
        simp only [hfind]
        constructor
        · intro hcon
          exact absurd hcon (by simp)
        · rintro ⟨-, g, hg, -⟩
          exact absurd hg (by simp)
      | some g =>
        simp only [hfind]
        constructor
        · intro hok
          have hdec : decide (g.expiresAt = 0 ∨ now < g.expiresAt) = true := by
            simpa using hok
          exact ⟨hr, g, rfl, of_decide_eq_true hdec⟩
        · rintro ⟨-, g', hg', hp⟩
          cases hg'
          rw [decide_eq_true hp]
  refine ⟨key, ?_, ?_⟩
  · intro st d r a now hex huniq
    rw [key st d r a now hex]
    constructor
    · rintro ⟨hr, g, hfind, hp⟩
      rw [findRight] at hfind
      have hmem := List.mem_of_find?_eq_some hfind
      have hmatch := List.find?_some hfind
      simp only [Bool.and_eq_true, beq_iff_eq] at hmatch
      exact ⟨hr, g, hmem, hmatch.1, hmatch.2, hp⟩
    · rintro ⟨hr, g, hmem, hrn, hh, hp⟩
      refine ⟨hr, ?_⟩
      cases hfind : findRight (st.domainRights d) r a with
      | none =>
        have : (findRight (st.domainRights d) r a).isSome := by
          rw [findRight, List.find?_isSome]
          exact ⟨g, hmem, by simp [hrn, hh]⟩
        rw [hfind] at this
        simp at this
      | some g'' =>
        have hfind' := hfind
        rw [findRight] at hfind'
        have hmem'' := List.mem_of_find?_eq_some hfind'
        have hmatch'' := List.find?_some hfind'
        simp only [Bool.and_eq_true, beq_iff_eq] at hmatch''
        have hgg : g'' = g :=
          huniq g'' hmem'' g hmem hmatch''.1 hmatch''.2 hrn hh
        subst hgg
        exact ⟨g'', rfl, hp⟩
  · intro st d r a now g hex hfind hne hlt
    constructor
    · rw [hasRight, if_neg hex]
      by_cases hr : (st.domains d).rights r ≠ a
      · rw [if_pos hr]
      · rw [if_neg hr]
        simp only [hfind]
        have hdec : decide (g.expiresAt = 0 ∨ now < g.expiresAt) = false := by
          simp only [decide_eq_false_iff_not]
          rintro (h0 | hlt2)
          · exact hne h0
          · omega
        rw [hdec]
    · rw [findRight] at hfind
      exact List.mem_of_find?_eq_some hfind

end DomainManagement

namespace DomainManagement

/-- Keep the post-state of a DomainManagement call, or the pre-state on
revert. -/
def dApply (r : Except DomainError DomainState) (st : DomainState) :
    DomainState :=
  match r with
  | .ok s => s
  | .error _ => st

/-- A concrete DomainManagement deployment over the two-credit DToken state
`wc2` (user 7 can pay for two features; contract address 9 is authorized). -/
def dd0 : DomainState :=
  { contractOwner := 1, selfAddr := 9, dtoken := Monitoring.wc2,
    domains := fun _ => emptyDomain, domainRights := fun _ => [],
    userDomains := fun _ => [], allDomains := [] }

/-- `dd0` after user 7 tokenizes `"dom.eth"` at time 10. -/
def dd1 : DomainState := dApply (tokenizeDomain 7 "dom.eth" 10 dd0) dd0

/-- `dd1` after owner 7 grants right `"DNS"` on `"dom.eth"` to address 8 for
5 seconds at time 10 (so `expiresAt = 15`). -/
def dd2 : DomainState := dApply (grantDomainRight 7 "dom.eth" "DNS" 8 5 10 dd1) dd1

/-- The grant-history record created by the grant in `dd2`. -/
def grantRec : DomainRights :=
  { rightName := "DNS", description := "Right: DNS for domain: dom.eth",
    holder := 8, grantedAt := 10, expiresAt := 15 }

/-- `dd1` after owner 7 transfers `"dom.eth"` to address 8. -/
def dd4 : DomainState := dApply (transferDomain 7 "dom.eth" 8 dd1) dd1

/-- Witness for C4 at concrete inputs: on `dd2`, at time 20 (> expiresAt = 15)
the query is false while the history still contains the grant record; at time
12 (< 15) the same query is true. -/
theorem c4_hasRight_semantics_witness :
    hasRight "dom.eth" "DNS" 8 20 dd2 = .ok false ∧
    grantRec ∈ dd2.domainRights "dom.eth" ∧
    hasRight "dom.eth" "DNS" 8 12 dd2 = .ok true := by
  refine ⟨?_, ?_, ?_⟩
  · exact (c4_hasRight_semantics.2.2 dd2 "dom.eth" "DNS" 8 20 grantRec
      (by decide) (by decide) (by decide) (by decide)).1
  · exact (c4_hasRight_semantics.2.2 dd2 "dom.eth" "DNS" 8 20 grantRec
      (by decide) (by decide) (by decide) (by decide)).2
  · exact (c4_hasRight_semantics.1 dd2 "dom.eth" "DNS" 8 12 (by decide)).mpr
      ⟨by decide, grantRec, by decide, by decide⟩

/-- Witness for C8 at concrete inputs: after the successful transfer producing
`dd4`, `"dom.eth"` is in 8's list exactly once and gone from 7's list. -/
theorem c8_transferDomain_userDomains_witness :
    (dd4.userDomains 8).count "dom.eth" = 1 ∧
    "dom.eth" ∉ dd4.userDomains 7 :=
  c8_transferDomain_userDomains dd1 dd4 7 8 "dom.eth" (by decide) (by decide)
    (by decide) rfl

end DomainManagement
